import Mathlib

/-!
Verification development for the Community network view and its GEXF
ingestion pipeline (src/utils/parseGexf.ts, src/components/views/Community.tsx,
src/components/DomainFilter.tsx).  The TypeScript sources are shallowly
embedded: pure functions become Lean functions, the React window-manager
state becomes an explicit state type with a step relation, JS numbers are
modelled as `Option ℚ` (with `none` for NaN), and the DOM documents handed to
the parser are modelled as a structural document type.
-/

namespace DDEC

/-- JavaScript number restricted to the rationals; `none` models `NaN`.
(No claim here depends on infinities or on float rounding.) -/
abbrev JsNum := Option ℚ

/-- Digits of a character stream: longest decimal-digit prefix, as digit values,
plus the rest of the stream.  Used to model `parseFloat` / `parseInt`. -/
def takeDigits : List Char → List ℕ × List Char
  | [] => ([], [])
  | c :: cs =>
    if c.isDigit then
      let p := takeDigits cs
      ((c.toNat - 48) :: p.1, p.2)
    else ([], c :: cs)

/-- Value of a big-endian digit list. -/
def natOfDigits (ds : List ℕ) : ℕ := ds.foldl (fun a d => 10 * a + d) 0

/-- Value of a fractional digit list (digits after the decimal point). -/
def fracOfDigits (ds : List ℕ) : ℚ := ds.foldr (fun d a => ((d : ℚ) + a) / 10) 0

/-- Model of the JavaScript builtin `parseFloat` on the fragment exercised by
the GEXF attribute values: optional sign, decimal digits, optional fractional
part; trailing characters are ignored; `none` models NaN (no leading number).
Exponents, leading whitespace and `Infinity` are outside the modelled fragment. -/
def jsParseFloat (s : String) : JsNum :=
  let p0 : ℚ × List Char :=
    match s.data with
    | '-' :: cs => (-1, cs)
    | '+' :: cs => (1, cs)
    | cs => (1, cs)
  let ip := takeDigits p0.2
  let fp : List ℕ :=
    match ip.2 with
    | '.' :: cs => (takeDigits cs).1
    | _ => []
  if ip.1 = [] ∧ fp = [] then none
  else some (p0.1 * ((natOfDigits ip.1 : ℚ) + fracOfDigits fp))

/-- Model of the JavaScript builtin `parseInt(s, 10)` on the same fragment:
optional sign then decimal digits; `none` models NaN. -/
def jsParseInt (s : String) : Option ℤ :=
  let p0 : ℤ × List Char :=
    match s.data with
    | '-' :: cs => (-1, cs)
    | '+' :: cs => (1, cs)
    | cs => (1, cs)
  let ip := takeDigits p0.2
  if ip.1 = [] then none else some (p0.1 * (natOfDigits ip.1 : ℤ))

/-- Model of the JavaScript builtin `String.prototype.toLowerCase` (ASCII case
folding suffices for the labels involved). -/
def jsToLowerCase (s : String) : String := String.mk (s.data.map Char.toLower)

/-- Character-level test that `sub` is an initial run of `s`. -/
def leadMatch : List Char → List Char → Bool
  | [], _ => true
  | _ :: _, [] => false
  | c :: cs, d :: ds => c == d && leadMatch cs ds

/-- Character-level substring search: `sub` occurs contiguously in `s`. -/
def subSearch : List Char → List Char → Bool
  | sub, [] => sub.isEmpty
  | sub, d :: ds => leadMatch sub (d :: ds) || subSearch sub ds

/-- Model of the JavaScript builtin `String.prototype.includes`:
substring containment. -/
def jsIncludes (s sub : String) : Bool := subSearch sub.data s.data

/-- Model of the JavaScript builtin `String.prototype.startsWith`. -/
def jsStartsWith (s sub : String) : Bool := leadMatch sub.data s.data

/-- Model of the JavaScript builtin `Math.round`: round half towards positive
infinity (`Math.round(x) = ⌊x + 1/2⌋` for every finite x). -/
def jsRound (x : ℚ) : ℤ := Rat.floor (x + 1 / 2)

/-- Two lowercase hex digits of a byte value, modelling
`x.toString(16).padStart(2, '0')` for `0 ≤ x ≤ 255` (parseGexf.ts line 15). -/
def toHexByte (n : ℕ) : String :=
  if n < 16 then String.mk ['0', Nat.digitChar n]
  else String.mk [Nat.digitChar (n / 16), Nat.digitChar (n % 16)]

/-- parseGexf.ts `rgbToHex`: clamp each rounded channel to [0, 255] and compose
the packed hex string. -/
def clampChannel (x : ℚ) : ℕ := (max 0 (min 255 (jsRound x))).toNat

/-- parseGexf.ts lines 11-16. -/
def rgbToHex (r g b : ℚ) : String :=
  "#" ++ toHexByte (clampChannel r) ++ toHexByte (clampChannel g) ++ toHexByte (clampChannel b)

/-! ## DOM-side model of a GEXF document

`DOMParser.parseFromString` and the namespace-aware element lookups of
parseGexf.ts are modelled structurally: a document either carries a
`parsererror` element (with its text content) or a tree whose `graph` element,
node elements, `viz:position` / `viz:color` / `viz:size` children and
`attvalue` children appear as optional structured fields.  Attribute values
are raw strings, exactly what `getAttribute` returns. -/

/-- An `attvalue` child of a node's `attvalues` container. -/
structure AttValueEl where
  forAttr : Option String
  value : Option String
deriving DecidableEq

/-- A `viz:position` element (attributes `x`, `y`). -/
structure VizPositionEl where
  x : Option String
  y : Option String
deriving DecidableEq

/-- A `viz:color` element (attributes `hex`, `r`, `g`, `b`). -/
structure VizColorEl where
  hex : Option String
  r : Option String
  g : Option String
  b : Option String
deriving DecidableEq

/-- A `viz:size` element (attribute `value`). -/
structure VizSizeEl where
  value : Option String
deriving DecidableEq

/-- A `node` element of the GEXF graph. -/
structure NodeEl where
  id : Option String
  label : Option String
  position : Option VizPositionEl
  color : Option VizColorEl
  size : Option VizSizeEl
  attvalues : Option (List AttValueEl)
deriving DecidableEq

/-- An `edge` element of the GEXF graph. -/
structure EdgeEl where
  source : Option String
  target : Option String
  weight : Option String
deriving DecidableEq

/-- The `graph` element. -/
structure GraphEl where
  nodes : List NodeEl
  edges : List EdgeEl
deriving DecidableEq

/-- A parsed XML document as seen by parseGexf: either the DOMParser produced a
`parsererror` element (whose text content is recorded) or the document tree
with an optional `graph` root. -/
structure GexfDoc where
  parserError : Option String
  graph : Option GraphEl
deriving DecidableEq

/-- The options argument of `parseGexf` (parseGexf.ts line 64). -/
structure GexfOptions where
  coauthorship : Bool := false
  citation : Bool := false
deriving DecidableEq

/-! ## Normalized graph model (src/types.ts) -/

/-- Node-type discriminator of `GraphNode`. -/
inductive NodeType where
  | author
  | paper
deriving DecidableEq

/-- `GraphNode` of src/types.ts; the optional simulation coordinates `x`, `y`
come from `d3.SimulationNodeDatum`.  The outer `Option` on `x`/`y` models
`undefined` (`typeof d.x !== 'number'`), the inner `JsNum` a JS number that
may be NaN. -/
structure GraphNode where
  id : String
  label : String
  group : String
  val : JsNum
  color : String
  fullLabel : Option String := none
  nodeType : NodeType
  topCitedPaperCount : Option ℤ := none
  x : Option JsNum := none
  y : Option JsNum := none
deriving DecidableEq

/-- One endpoint of a `GraphLink`: `source`/`target` is either a resolved node
object or a raw id string (src/types.ts `string | GraphNode`). -/
inductive LinkEnd where
  | ref (node : GraphNode)
  | strId (s : String)
deriving DecidableEq

/-- The id an endpoint resolves to:
`typeof link.source === 'string' ? link.source : link.source.id`. -/
def LinkEnd.endId : LinkEnd → String
  | .ref n => n.id
  | .strId s => s

/-- `GraphLink` of src/types.ts. -/
structure GraphLink where
  source : LinkEnd
  target : LinkEnd
  value : JsNum
deriving DecidableEq

/-- `NetworkData` of src/types.ts. -/
structure NetworkData where
  nodes : List GraphNode
  links : List GraphLink
deriving DecidableEq

/-! ## The parser (parseGexf.ts) -/

/-- parseGexf.ts `getRgbFromColorEl` (lines 34-45): each channel is NaN when
its attribute is absent or does not parse; the triple is returned only when
all three channels are non-NaN. -/
def getRgbFromColorEl (c : VizColorEl) : Option (ℚ × ℚ × ℚ) :=
  match c.r.bind jsParseFloat, c.g.bind jsParseFloat, c.b.bind jsParseFloat with
  | some rv, some gv, some bv => some (rv, gv, bv)
  | _, _, _ => none

/-- parseGexf.ts `getAttValue` (lines 47-55): first `attvalue` whose `for`
attribute equals `attrId`; its `value` attribute (possibly absent). -/
def getAttValue (n : NodeEl) (attrId : String) : Option String :=
  match n.attvalues with
  | none => none
  | some l =>
    match l.find? (fun a => a.forAttr == some attrId) with
    | some a => a.value
    | none => none

/-- Normalization of a raw hex attribute value
(`hex.startsWith('#') ? hex : '#' + hex`, parseGexf.ts line 96). -/
def resolveHexString (h : String) : String :=
  if jsStartsWith h "#" then h else "#" ++ h

/-- RGB fallback of the color resolution (parseGexf.ts lines 98-99):
default gray when the triple is unavailable. -/
def colorFromRgb (c : VizColorEl) : String :=
  match getRgbFromColorEl c with
  | some (rv, gv, bv) => rgbToHex rv gv bv
  | none => "#94a3b8"

/-- Color resolution of parseGexf.ts lines 91-101: default gray without a
`viz:color` element; a truthy `hex` attribute wins; otherwise the RGB triple;
otherwise the default gray. -/
def resolveColor (c : Option VizColorEl) : String :=
  match c with
  | none => "#94a3b8"
  | some el =>
    match el.hex with
    | some h => if h ≠ "" then resolveHexString h else colorFromRgb el
    | none => colorFromRgb el

/-- The `x` coordinate extraction of parseGexf.ts line 89:
`pos ? parseFloat(pos.getAttribute('x') ?? '0') : 0`. -/
def vizX (p : Option VizPositionEl) : JsNum :=
  match p with
  | some el => jsParseFloat (el.x.getD "0")
  | none => some 0

/-- The `y` coordinate extraction of parseGexf.ts line 90. -/
def vizY (p : Option VizPositionEl) : JsNum :=
  match p with
  | some el => jsParseFloat (el.y.getD "0")
  | none => some 0

/-- The size extraction of parseGexf.ts line 102:
`sizeEl ? parseFloat(sizeEl.getAttribute('value') ?? '5') : 5`. -/
def vizVal (s : Option VizSizeEl) : JsNum :=
  match s with
  | some el => jsParseFloat (el.value.getD "5")
  | none => some 5

/-- parseGexf.ts line 81: `n.getAttribute('id') ?? ''`. -/
def nodeIdOf (n : NodeEl) : String := n.id.getD ""

/-- parseGexf.ts line 82: `n.getAttribute('label') ?? id`. -/
def nodeLabelOf (n : NodeEl) : String := n.label.getD (nodeIdOf n)

/-- parseGexf.ts lines 105-107: the `cluster` attribute and the
`group || 'unknown'` default of line 129. -/
def nodeGroup (n : NodeEl) : String :=
  let group :=
    match getAttValue n "cluster" with
    | some v => "Cluster " ++ v
    | none => ""
  if group = "" then "unknown" else group

/-- parseGexf.ts lines 110-115: the `d1` attribute parsed as an int, kept only
when not NaN. -/
def nodeTopCited (n : NodeEl) : Option ℤ :=
  (getAttValue n "d1").bind jsParseInt

/-- parseGexf.ts lines 117-123: node-type classification.  In citation mode
the source's conditional on the `d3` (author_type) attribute yields `author`
in both branches. -/
def nodeTypeOf (opts : GexfOptions) (n : NodeEl) : NodeType :=
  if opts.coauthorship then NodeType.author
  else if opts.citation then
    (if getAttValue n "d3" == some "source" || getAttValue n "d3" == some "citing"
     then NodeType.author else NodeType.author)
  else NodeType.author

/-- Per-node extraction of parseGexf.ts lines 79-137. -/
def buildNode (opts : GexfOptions) (n : NodeEl) : GraphNode :=
  { id := nodeIdOf n
    label := nodeLabelOf n
    fullLabel := some (nodeLabelOf n)
    group := nodeGroup n
    val := vizVal n.size
    color := resolveColor n.color
    nodeType := nodeTypeOf opts n
    topCitedPaperCount := nodeTopCited n
    x := some (vizX n.position)
    y := some (vizY n.position) }

/-- The node table: a JS `Map<string, GraphNode>` as an insertion-ordered
association list with unique keys. -/
abbrev NodeMap := List (String × GraphNode)

/-- JS `Map.set`: replace the value of an existing key in place, otherwise
append the binding at the end. -/
def jsMapSet : NodeMap → String → GraphNode → NodeMap
  | [], k, v => [(k, v)]
  | (a, b) :: rest, k, v =>
    if a = k then (k, v) :: rest else (a, b) :: jsMapSet rest k v

/-- JS `Map.get` (as an `Option`; parseGexf guards every `get` with `has`). -/
def jsMapGet (m : NodeMap) (k : String) : Option GraphNode :=
  (m.find? (fun p => p.1 == k)).map Prod.snd

/-- The `nodeMap` construction of parseGexf.ts lines 77-138. -/
def buildNodeMap (opts : GexfOptions) (els : List NodeEl) : NodeMap :=
  els.foldl (fun m el => jsMapSet m (nodeIdOf el) (buildNode opts el)) []

/-- Edge resolution of parseGexf.ts lines 144-156: the edge is kept only when
both endpoint ids are truthy strings and both resolve in the node table
(`sourceId && targetId && nodeMap.has(sourceId) && nodeMap.has(targetId)`);
the `Map.get` calls after the `has` guards are the `some` matches here. -/
def resolveEdge (m : NodeMap) (e : EdgeEl) : Option GraphLink :=
  match e.source, e.target with
  | some sid, some tid =>
    if sid ≠ "" ∧ tid ≠ "" then
      match jsMapGet m sid, jsMapGet m tid with
      | some ns, some nt =>
        some { source := LinkEnd.ref ns, target := LinkEnd.ref nt,
               value := jsParseFloat (e.weight.getD "1") }
      | _, _ => none
    else none
  | _, _ => none

/-- parseGexf.ts lines 62-159.  A `parsererror` element fails with the XML
diagnostic (`parseError.textContent || 'Invalid XML'`); a missing `graph`
root fails with the distinct structural diagnostic; otherwise the node table
is built and the edges are resolved against it. -/
def parseGexf (doc : GexfDoc) (opts : GexfOptions) : Except String NetworkData :=
  match doc.parserError with
  | some t => .error ("GEXF parse error: " ++ (if t = "" then "Invalid XML" else t))
  | none =>
    match doc.graph with
    | none => .error "GEXF: missing graph"
    | some g =>
      let m := buildNodeMap opts g.nodes
      .ok { nodes := m.map Prod.snd, links := g.edges.filterMap (resolveEdge m) }

/-! ## Community view (src/components/views/Community.tsx) -/

/-- The fields of a `Paper` record (src/types.ts) read by the Community
citation filter; the remaining fields are never consulted there. -/
structure Paper where
  id : String
  domainId : String
  subArea : String
deriving DecidableEq

/-- An active filter of the DomainFilter component
(src/components/DomainFilter.tsx): a domain predicate or a subdomain
predicate carrying its parent domain id. -/
inductive ActiveFilter where
  | domain (value : String)
  | subdomain (value : String) (domainId : String)
deriving DecidableEq

/-- The per-filter match of Community.tsx lines 91-100: a domain filter
compares the node's group; a subdomain filter looks the paper up by node id
and compares its domain id and sub-area. -/
def nodeMatchesFilter (papersList : List Paper) (node : GraphNode) (f : ActiveFilter) : Bool :=
  match f with
  | .domain v => node.group == v
  | .subdomain v did =>
    match papersList.find? (fun p => p.id == node.id) with
    | none => false
    | some p => p.domainId == did && p.subArea == v

/-- The citation-mode domain/subdomain filter of the Community `data` useMemo
(Community.tsx lines 84-111): author nodes are kept, paper nodes must match
some active filter, and links are re-filtered to endpoints whose ids survive. -/
def filterCitationData (base : NetworkData) (activeFilters : List ActiveFilter)
    (papersList : List Paper) : NetworkData :=
  let nodes := base.nodes.filter (fun node =>
    if node.nodeType != NodeType.paper then true
    else activeFilters.any (nodeMatchesFilter papersList node))
  let nodeIds := nodes.map (fun n => n.id)
  { nodes := nodes
    links := base.links.filter (fun l =>
      nodeIds.contains l.source.endId && nodeIds.contains l.target.endId) }

/-- Community.tsx lines 204-207: the dataset has an authoritative (GEXF)
layout iff it is non-empty and every node's `x` and `y` are of type number
(NaN included). -/
def hasGexfLayout (nodes : List GraphNode) : Bool :=
  decide (0 < nodes.length) && nodes.all (fun d => d.x.isSome && d.y.isSome)

/-- Community.tsx lines 232-241: the force simulation is created exactly when
the dataset has no authoritative layout. -/
def simulationStarted (nodes : List GraphNode) : Bool := !hasGexfLayout nodes

/-! ### Highlight classification (Community.tsx lines 451-503) -/

/-- Community.tsx `isHighlight` (lines 458-470), taking the lowercased search
term, the hover state, and the ids of the open inspector windows. -/
def isHighlight (term : String) (hoverNode : Option GraphNode)
    (hoverLink : Option GraphLink) (openNodeIds : List String) (d : GraphNode) : Bool :=
  if term ≠ "" then
    jsIncludes (jsToLowerCase d.label) term
      || jsIncludes (jsToLowerCase (d.fullLabel.getD "")) term
  else
    (match hoverLink with
     | some hl => d.id == hl.source.endId || d.id == hl.target.endId
     | none => false)
    || (match hoverNode with
        | some hn => d.id == hn.id
        | none => false)
    || openNodeIds.contains d.id

/-- The node opacity assignment of Community.tsx lines 475-479
(`term ? (hit ? 1 : 0.1) : (hover ? (hit ? 1 : 0.3) : 1)`); the term is the
lowercased search term as in line 456. -/
def nodeOpacity (searchTerm : String) (hoverNode : Option GraphNode)
    (hoverLink : Option GraphLink) (openNodeIds : List String) (d : GraphNode) : ℚ :=
  let term := jsToLowerCase searchTerm
  if term ≠ "" then
    (if isHighlight term hoverNode hoverLink openNodeIds d then 1 else 1 / 10)
  else if hoverNode.isSome || hoverLink.isSome then
    (if isHighlight term hoverNode hoverLink openNodeIds d then 1 else 3 / 10)
  else 1

/-! ### Floating window manager (Community.tsx lines 47-177, 563-642) -/

/-- `WindowState` of Community.tsx lines 9-15. -/
structure WindowState where
  id : String
  node : GraphNode
  x : ℚ
  y : ℚ
  zIndex : ℤ
deriving DecidableEq

/-- The window-manager state: the `windows` array and the `nextZIndex`
counter. -/
structure WMState where
  windows : List WindowState
  nextZIndex : ℤ
deriving DecidableEq

/-- `addWindow` of Community.tsx lines 126-141.  `cw` is the resolved
container width (`containerRef.current?.clientWidth || 800`). -/
def addWindow (s : WMState) (node : GraphNode) (initialX initialY cw : ℚ) : WMState :=
  let ws :=
    if s.windows.any (fun w => w.id == node.id) then
      s.windows.map (fun w =>
        if w.id == node.id then { w with zIndex := s.nextZIndex + 1 } else w)
    else
      let offsetCount : ℚ := s.windows.length
      s.windows ++ [{ id := node.id, node := node,
                      x := min (initialX + 20 + offsetCount * 10) (cw - 300),
                      y := max (initialY - 50 + offsetCount * 10) 20,
                      zIndex := s.nextZIndex + 1 }]
  { windows := ws, nextZIndex := s.nextZIndex + 1 }

/-- `closeWindow` of Community.tsx lines 143-145. -/
def closeWindow (s : WMState) (id : String) : WMState :=
  { s with windows := s.windows.filter (fun w => w.id != id) }

/-- `bringToFront` of Community.tsx lines 147-150. -/
def bringToFront (s : WMState) (id : String) : WMState :=
  { windows := s.windows.map (fun w =>
      if w.id == id then { w with zIndex := s.nextZIndex + 1 } else w),
    nextZIndex := s.nextZIndex + 1 }

/-- The net effect of `handleMouseMove` during a drag (Community.tsx lines
162-173): the dragged window's position is set to the pointer position minus
the stored drag offset; `nx`/`ny` stand for that resolved position. -/
def moveWindow (s : WMState) (draggingId : String) (nx ny : ℚ) : WMState :=
  { s with windows := s.windows.map (fun w =>
      if w.id == draggingId then { w with x := nx, y := ny } else w) }

/-- `setWindows([])` on every mode / citation-type switch
(Community.tsx lines 565, 571, 632, 638). -/
def clearWindows (s : WMState) : WMState := { s with windows := [] }

/-- The initial window-manager state (`useState([])`, `useState(10)`,
Community.tsx lines 47, 52). -/
def WMInit : WMState := { windows := [], nextZIndex := 10 }

/-- One user-visible transition of the window manager. -/
inductive WMStep : WMState → WMState → Prop where
  | add (s : WMState) (node : GraphNode) (ix iy cw : ℚ) : WMStep s (addWindow s node ix iy cw)
  | close (s : WMState) (id : String) : WMStep s (closeWindow s id)
  | front (s : WMState) (id : String) : WMStep s (bringToFront s id)
  | move (s : WMState) (id : String) (nx ny : ℚ) : WMStep s (moveWindow s id nx ny)
  | clear (s : WMState) : WMStep s (clearWindows s)

/-- States reachable from the initial window-manager state. -/
inductive WMReachable : WMState → Prop where
  | init : WMReachable WMInit
  | step {s t : WMState} : WMReachable s → WMStep s t → WMReachable t

/-! ## DomainFilter component (src/components/DomainFilter.tsx) -/

/-- The fields of a `Domain` record (src/types.ts) read by the filter
component. -/
structure Domain where
  id : String
  name : String
  color : String
  subAreas : List String
deriving DecidableEq

/-- The `type` discriminator of `toggleFilter`. -/
inductive FilterType where
  | domain
  | subdomain
deriving DecidableEq

/-- The findIndex predicate for a domain filter
(`f.type === 'domain' && f.value === value`). -/
def domainPred (value : String) (f : ActiveFilter) : Bool :=
  match f with
  | .domain v => v == value
  | _ => false

/-- The findIndex predicate for a subdomain filter under a known parent
(`f.type === 'subdomain' && f.value === subArea && f.domainId === value`). -/
def subPred (subArea domainId : String) (f : ActiveFilter) : Bool :=
  match f with
  | .subdomain v d2 => v == subArea && d2 == domainId
  | _ => false

/-- The findIndex predicate of the subdomain branch, where the `domainId`
argument is optional in the source signature. -/
def subPredOpt (value : String) (domainId : Option String) (f : ActiveFilter) : Bool :=
  match f with
  | .subdomain v d2 => v == value && some d2 == domainId
  | _ => false

/-- The `findIndex` / `splice(index, 1)` pattern of the source: remove the
first element satisfying the predicate, if any. -/
def eraseFirst (p : ActiveFilter → Bool) (l : List ActiveFilter) : List ActiveFilter :=
  match l.findIdx? p with
  | some i => l.eraseIdx i
  | none => l

/-- `toggleFilter` of DomainFilter.tsx lines 46-80.  Removing an active
domain filter also walks the domain's `subAreas` and removes each matching
subdomain filter; toggling anything absent appends it. -/
def toggleFilter (domainsList : List Domain) (ty : FilterType) (value : String)
    (domainId : Option String) (activeFilters : List ActiveFilter) : List ActiveFilter :=
  match ty with
  | FilterType.domain =>
    match activeFilters.findIdx? (domainPred value) with
    | some index =>
      let nf := activeFilters.eraseIdx index
      match domainsList.find? (fun d => d.id == value) with
      | some dom => dom.subAreas.foldl (fun acc subArea => eraseFirst (subPred subArea value) acc) nf
      | none => nf
    | none => activeFilters ++ [ActiveFilter.domain value]
  | FilterType.subdomain =>
    match activeFilters.findIdx? (subPredOpt value domainId) with
    | some index => activeFilters.eraseIdx index
    | none => activeFilters ++ [ActiveFilter.subdomain value (domainId.getD "")]

/-! ## Auxiliary lemmas about the JS `Map` model -/

lemma jsMapGet_nil (k : String) : jsMapGet [] k = none := rfl

lemma jsMapGet_cons (a : String) (b : GraphNode) (rest : NodeMap) (k : String) :
    jsMapGet ((a, b) :: rest) k = if a == k then some b else jsMapGet rest k := by
  simp only [jsMapGet, List.find?_cons]
  cases h : (a == k) <;> simp [h]

lemma jsMapGet_set (m : NodeMap) (k : String) (v : GraphNode) (k2 : String) :
    jsMapGet (jsMapSet m k v) k2 = if k2 = k then some v else jsMapGet m k2 := by
  induction m with
  | nil =>
    simp only [jsMapSet, jsMapGet_cons, jsMapGet_nil]
    by_cases h : k2 = k
    · simp [h]
    · simp [h, Ne.symm h]
  | cons ab rest ih =>
    obtain ⟨a, b⟩ := ab
    by_cases hak : a = k
    · subst hak
      simp only [jsMapSet, if_pos rfl, if_true]
      by_cases h : k2 = a
      · simp [jsMapGet_cons, h]
      · have h2 : ¬(a == k2) = true := by
          simp only [beq_iff_eq]
          exact fun hc => h hc.symm
        simp [jsMapGet_cons, h, h2]
    · simp only [jsMapSet, if_neg hak, jsMapGet_cons, ih]
      by_cases h2 : k2 = k
      · subst h2
        have h3 : ¬(a == k2) = true := by simp [hak]
        simp [h3]
      · simp [h2]

lemma jsMapGet_mem (m : NodeMap) (k : String) (v : GraphNode)
    (h : jsMapGet m k = some v) : v ∈ m.map Prod.snd := by
  unfold jsMapGet at h
  cases hf : m.find? (fun p => p.1 == k) with
  | none => rw [hf] at h; cases h
  | some p =>
    rw [hf] at h
    simp only [Option.map_some', Option.some.injEq] at h
    exact List.mem_map.mpr ⟨p, List.mem_of_find?_eq_some hf, h⟩

lemma mem_keys_jsMapSet (m : NodeMap) (k : String) (v : GraphNode) (a : String) :
    a ∈ (jsMapSet m k v).map Prod.fst → a ∈ m.map Prod.fst ∨ a = k := by
  induction m with
  | nil =>
    intro h
    simp only [jsMapSet, List.map_cons, List.map_nil] at h
    rcases List.mem_cons.mp h with h | h
    · exact Or.inr h
    · cases h
  | cons ab rest ih =>
    obtain ⟨x, y⟩ := ab
    intro h
    by_cases hak : x = k
    · subst hak
      simp only [jsMapSet, if_pos rfl, if_true, List.map_cons, List.mem_cons] at h
      rcases h with h | h
      · exact Or.inr h
      · exact Or.inl (List.mem_cons.mpr (Or.inr h))
    · simp only [jsMapSet, if_neg hak, List.map_cons, List.mem_cons] at h
      rcases h with h | h
      · exact Or.inl (List.mem_cons.mpr (Or.inl h))
      · rcases ih h with h2 | h2
        · exact Or.inl (List.mem_cons.mpr (Or.inr h2))
        · exact Or.inr h2

lemma keys_nodup_jsMapSet (m : NodeMap) (k : String) (v : GraphNode) :
    (m.map Prod.fst).Nodup → ((jsMapSet m k v).map Prod.fst).Nodup := by
  induction m with
  | nil => intro _; simp [jsMapSet]
  | cons ab rest ih =>
    obtain ⟨x, y⟩ := ab
    intro h
    simp only [List.map_cons, List.nodup_cons] at h
    by_cases hak : x = k
    · subst hak
      simp only [jsMapSet, if_pos rfl, if_true, List.map_cons, List.nodup_cons]
      exact h
    · simp only [jsMapSet, if_neg hak, List.map_cons, List.nodup_cons]
      refine ⟨fun hc => ?_, ih h.2⟩
      rcases mem_keys_jsMapSet rest k v x hc with h2 | h2
      · exact h.1 h2
      · exact hak h2

lemma pairs_jsMapSet {P : String × GraphNode → Prop} (m : NodeMap) (k : String) (v : GraphNode)
    (hv : P (k, v)) : (∀ p ∈ m, P p) → ∀ p ∈ jsMapSet m k v, P p := by
  induction m with
  | nil => intro _; simpa [jsMapSet] using hv
  | cons ab rest ih =>
    obtain ⟨x, y⟩ := ab
    intro hm
    by_cases hak : x = k
    · subst hak
      simp only [jsMapSet, if_pos rfl, if_true]
      intro p hp
      rcases List.mem_cons.mp hp with h | h
      · exact h ▸ hv
      · exact hm p (List.mem_cons.mpr (Or.inr h))
    · simp only [jsMapSet, if_neg hak]
      intro p hp
      rcases List.mem_cons.mp hp with h | h
      · exact hm p (h ▸ List.mem_cons_self _ _)
      · exact ih (fun q hq => hm q (List.mem_cons.mpr (Or.inr hq))) p h

/-- The node-table fold preserves key uniqueness and the key/id coherence of
the bindings. -/
lemma buildNodeMap_inv (opts : GexfOptions) (els : List NodeEl) :
    ∀ m : NodeMap, (m.map Prod.fst).Nodup → (∀ p ∈ m, p.2.id = p.1) →
      (((els.foldl (fun m el => jsMapSet m (nodeIdOf el) (buildNode opts el)) m).map Prod.fst).Nodup
        ∧ ∀ p ∈ els.foldl (fun m el => jsMapSet m (nodeIdOf el) (buildNode opts el)) m, p.2.id = p.1) := by
  induction els with
  | nil => intro m h1 h2; exact ⟨h1, h2⟩
  | cons el rest ih =>
    intro m h1 h2
    simp only [List.foldl_cons]
    exact ih _ (keys_nodup_jsMapSet m _ _ h1)
      (pairs_jsMapSet m _ _ rfl h2)

/-- Lookup in the folded node table: the binding of the last node element
carrying the queried id wins. -/
lemma jsMapGet_fold (opts : GexfOptions) (els : List NodeEl) :
    ∀ (m : NodeMap) (i : String),
      jsMapGet (els.foldl (fun m el => jsMapSet m (nodeIdOf el) (buildNode opts el)) m) i
        = match els.reverse.find? (fun el => nodeIdOf el == i) with
          | some el => some (buildNode opts el)
          | none => jsMapGet m i := by
  induction els with
  | nil => intro m i; rfl
  | cons el rest ih =>
    intro m i
    rw [List.foldl_cons, ih, List.reverse_cons, List.find?_append]
    cases hr : rest.reverse.find? (fun el => nodeIdOf el == i) with
    | some e => rfl
    | none =>
      show _ = (match List.find? (fun el => nodeIdOf el == i) [el] with
        | some el => some (buildNode opts el)
        | none => jsMapGet m i)
      rw [jsMapGet_set]
      cases hel : (nodeIdOf el == i) with
      | true =>
        have h2 : i = nodeIdOf el := (eq_of_beq hel).symm
        rw [if_pos h2]
        simp [List.find?_cons, hel]
      | false =>
        have h2 : ¬ i = nodeIdOf el := by
          intro hc
          rw [hc, beq_self_eq_true] at hel
          cases hel
        rw [if_neg h2]
        simp [List.find?_cons, hel]

lemma find?_map_snd (m : NodeMap) (i : String) :
    (∀ p ∈ m, p.2.id = p.1) →
      (m.map Prod.snd).find? (fun n => n.id == i) = jsMapGet m i := by
  induction m with
  | nil => intro _; rfl
  | cons ab rest ih =>
    obtain ⟨a, b⟩ := ab
    intro hk
    have hb : b.id = a := hk (a, b) (List.mem_cons_self _ _)
    simp only [List.map_cons, List.find?_cons, jsMapGet_cons, hb]
    cases h : (a == i) with
    | true => simp [h]
    | false => simpa [h] using ih (fun q hq => hk q (List.mem_cons.mpr (Or.inr hq)))

/-- Success inversion for the parser. -/
lemma parseGexf_ok_inv (doc : GexfDoc) (opts : GexfOptions) (nd : NetworkData)
    (h : parseGexf doc opts = Except.ok nd) :
    doc.parserError = none ∧ ∃ g, doc.graph = some g ∧
      nd = { nodes := (buildNodeMap opts g.nodes).map Prod.snd,
             links := g.edges.filterMap (resolveEdge (buildNodeMap opts g.nodes)) } := by
  unfold parseGexf at h
  cases hpe : doc.parserError with
  | some t => rw [hpe] at h; cases h
  | none =>
    rw [hpe] at h
    cases hg : doc.graph with
    | none => rw [hg] at h; cases h
    | some g =>
      rw [hg] at h
      exact ⟨rfl, g, rfl, (Except.ok.inj h).symm⟩

/-- Inversion for a resolved edge. -/
lemma resolveEdge_inv (m : NodeMap) (e : EdgeEl) (l : GraphLink)
    (h : resolveEdge m e = some l) :
    ∃ sid tid ns nt, e.source = some sid ∧ e.target = some tid
      ∧ l.source = LinkEnd.ref ns ∧ l.target = LinkEnd.ref nt
      ∧ jsMapGet m sid = some ns ∧ jsMapGet m tid = some nt := by
  unfold resolveEdge at h
  split at h
  next sid tid hs ht =>
    split at h
    · split at h
      next ns nt hgs hgt =>
        refine ⟨sid, tid, ns, nt, hs, ht, ?_, ?_, hgs, hgt⟩
        · rw [← Option.some.inj h]
        · rw [← Option.some.inj h]
      next => cases h
    · cases h
  next => cases h

/-! ## Auxiliary lemmas about the filter-toggle removal chain -/

lemma eraseFirst_eq_eraseP (p : ActiveFilter → Bool) (l : List ActiveFilter) :
    eraseFirst p l = l.eraseP p := by
  induction l with
  | nil => rfl
  | cons a l ih =>
    rw [eraseFirst]
    by_cases hpa : p a = true
    · rw [List.findIdx?_cons, if_pos hpa, List.eraseP_cons_of_pos hpa]
      rfl
    · rw [List.findIdx?_cons, if_neg hpa, List.findIdx?_succ, List.eraseP_cons_of_neg hpa]
      rw [eraseFirst] at ih
      cases hfi : l.findIdx? p with
      | none =>
        rw [hfi] at ih
        simpa [hfi] using congrArg (List.cons a) ih
      | some j =>
        rw [hfi] at ih
        simpa [hfi, List.eraseIdx] using congrArg (List.cons a) ih

/-- When the predicate singles out one possible element, erasing its first
occurrence from a duplicate-free list is filtering it out. -/
lemma eraseP_eq_filter_of_unique (l : List ActiveFilter) (p : ActiveFilter → Bool)
    (t : ActiveFilter) (hp : ∀ f, p f = true ↔ f = t) :
    l.Nodup → l.eraseP p = l.filter (fun f => !(p f)) := by
  induction l with
  | nil => intro _; rfl
  | cons a l ih =>
    intro h
    rcases List.nodup_cons.mp h with ⟨ha, hl⟩
    by_cases hpa : p a = true
    · rw [List.eraseP_cons_of_pos hpa]
      have hat : a = t := (hp a).mp hpa
      have hkeep : l.filter (fun f => !(p f)) = l := by
        apply List.filter_eq_self.mpr
        intro f hf
        have hft : f ≠ t := fun hc => ha (by rw [hat, ← hc]; exact hf)
        cases hpf : p f with
        | false => rfl
        | true => exact (hft ((hp f).mp hpf)).elim
      simp [List.filter_cons, hpa, hkeep]
    · rw [List.eraseP_cons_of_neg hpa]
      simp [List.filter_cons, hpa, ih hl]

lemma subPred_unique (sa did : String) :
    ∀ f, subPred sa did f = true ↔ f = ActiveFilter.subdomain sa did := by
  intro f
  cases f with
  | domain v => simp [subPred]
  | subdomain v d2 =>
    simp only [subPred, Bool.and_eq_true, beq_iff_eq, ActiveFilter.subdomain.injEq]

lemma domainPred_unique (did : String) :
    ∀ f, domainPred did f = true ↔ f = ActiveFilter.domain did := by
  intro f
  cases f with
  | domain v => simp [domainPred]
  | subdomain v d2 => simp [domainPred]

/-- Walking the sub-areas and erasing each matching subdomain filter from a
duplicate-free filter list removes exactly the filters matching some listed
sub-area. -/
lemma foldl_eraseFirst_subPred (did : String) (sas : List String) :
    ∀ l : List ActiveFilter, l.Nodup →
      sas.foldl (fun acc subArea => eraseFirst (subPred subArea did) acc) l
        = l.filter (fun f => !(sas.any (fun sa => subPred sa did f))) := by
  induction sas with
  | nil =>
    intro l _
    simp
  | cons sa rest ih =>
    intro l hl
    rw [List.foldl_cons]
    have h1 : eraseFirst (subPred sa did) l = l.filter (fun f => !(subPred sa did f)) := by
      rw [eraseFirst_eq_eraseP]
      exact eraseP_eq_filter_of_unique l _ _ (subPred_unique sa did) hl
    rw [h1, ih _ (List.Nodup.filter _ hl), List.filter_filter]
    apply List.filter_congr
    intro f _
    simp [Bool.not_or, Bool.and_comm]

/-! ## Window-manager invariant -/

/-- Invariant of every reachable window-manager state: window ids are
pairwise distinct and every assigned z-index is bounded by the counter. -/
def WMInv (s : WMState) : Prop :=
  (s.windows.map (fun w => w.id)).Nodup ∧ ∀ w ∈ s.windows, w.zIndex ≤ s.nextZIndex

lemma wmInv_init : WMInv WMInit := by
  constructor
  · simp [WMInit]
  · intro w hw
    simp [WMInit] at hw

lemma wmInv_addWindow (s : WMState) (node : GraphNode) (ix iy cw : ℚ)
    (h : WMInv s) : WMInv (addWindow s node ix iy cw) := by
  obtain ⟨hnd, hz⟩ := h
  by_cases hex : (s.windows.any (fun w => w.id == node.id)) = true
  · constructor
    · have hids : ((addWindow s node ix iy cw).windows.map (fun w => w.id))
          = s.windows.map (fun w => w.id) := by
        simp only [addWindow, if_pos hex, List.map_map]
        apply List.map_congr_left
        intro w _
        by_cases hw : w.id = node.id <;> simp [hw]
      rw [hids]; exact hnd
    · intro w hw
      simp only [addWindow, if_pos hex, List.mem_map] at hw
      obtain ⟨w0, hw0, hweq⟩ := hw
      by_cases hid : w0.id = node.id
      · simp only [hid, beq_self_eq_true, if_true] at hweq
        subst hweq
        simp [addWindow]
      · have hidb : ¬(w0.id == node.id) = true := by simp [hid]
        rw [if_neg hidb] at hweq
        subst hweq
        have := hz w0 hw0
        simp only [addWindow]
        omega
  · constructor
    · have hnotin : node.id ∉ s.windows.map (fun w => w.id) := by
        intro hc
        rcases List.mem_map.mp hc with ⟨w0, hw0, hid⟩
        exact hex (List.any_eq_true.mpr ⟨w0, hw0, by simp [hid]⟩)
      simp only [addWindow, if_neg hex, List.map_append]
      rw [List.nodup_append]
      refine ⟨hnd, by simp, ?_⟩
      intro a ha hb
      simp only [List.map_cons, List.map_nil, List.mem_singleton] at hb
      exact hnotin (hb ▸ ha)
    · intro w hw
      simp only [addWindow, if_neg hex, List.mem_append] at hw
      rcases hw with hw | hw
      · have := hz w hw
        simp only [addWindow]
        omega
      · simp only [List.mem_singleton] at hw
        subst hw
        simp [addWindow]

lemma wmInv_closeWindow (s : WMState) (id : String) (h : WMInv s) :
    WMInv (closeWindow s id) := by
  obtain ⟨hnd, hz⟩ := h
  constructor
  · exact List.Nodup.sublist (List.Sublist.map _ (List.filter_sublist _)) hnd
  · intro w hw
    simp only [closeWindow, List.mem_filter] at hw
    exact hz w hw.1

lemma wmInv_bringToFront (s : WMState) (id : String) (h : WMInv s) :
    WMInv (bringToFront s id) := by
  obtain ⟨hnd, hz⟩ := h
  constructor
  · have hids : ((bringToFront s id).windows.map (fun w => w.id))
        = s.windows.map (fun w => w.id) := by
      simp only [bringToFront, List.map_map]
      apply List.map_congr_left
      intro w _
      by_cases hw : w.id = id <;> simp [hw]
    rw [hids]; exact hnd
  · intro w hw
    simp only [bringToFront, List.mem_map] at hw
    obtain ⟨w0, hw0, hweq⟩ := hw
    by_cases hid : w0.id = id
    · simp only [hid, beq_self_eq_true, if_true] at hweq
      subst hweq
      simp [bringToFront]
    · have hidb : ¬(w0.id == id) = true := by simp [hid]
      rw [if_neg hidb] at hweq
      subst hweq
      have := hz w0 hw0
      simp only [bringToFront]
      omega

lemma wmInv_moveWindow (s : WMState) (id : String) (nx ny : ℚ) (h : WMInv s) :
    WMInv (moveWindow s id nx ny) := by
  obtain ⟨hnd, hz⟩ := h
  constructor
  · have hids : ((moveWindow s id nx ny).windows.map (fun w => w.id))
        = s.windows.map (fun w => w.id) := by
      simp only [moveWindow, List.map_map]
      apply List.map_congr_left
      intro w _
      by_cases hw : w.id = id <;> simp [hw]
    rw [hids]; exact hnd
  · intro w hw
    simp only [moveWindow, List.mem_map] at hw
    obtain ⟨w0, hw0, hweq⟩ := hw
    by_cases hid : w0.id = id
    · simp only [hid, beq_self_eq_true, if_true] at hweq
      subst hweq
      simpa [moveWindow] using hz w0 hw0
    · have hidb : ¬(w0.id == id) = true := by simp [hid]
      rw [if_neg hidb] at hweq
      subst hweq
      exact hz w0 hw0

lemma wmInv_clearWindows (s : WMState) (_h : WMInv s) : WMInv (clearWindows s) := by
  constructor
  · simp [clearWindows]
  · intro w hw
    simp [clearWindows] at hw

lemma wmInv_reachable (s : WMState) (h : WMReachable s) : WMInv s := by
  induction h with
  | init => exact wmInv_init
  | step _ hstep ih =>
    cases hstep with
    | add node ix iy cw => exact wmInv_addWindow _ node ix iy cw ih
    | close id => exact wmInv_closeWindow _ id ih
    | front id => exact wmInv_bringToFront _ id ih
    | move id nx ny => exact wmInv_moveWindow _ id nx ny ih
    | clear => exact wmInv_clearWindows _ ih

/-! ## Concrete sample data used by witnesses and counterexamples -/

/-- A node element carrying only an id. -/
def bareNodeEl (i : String) : NodeEl :=
  { id := some i, label := none, position := none, color := none, size := none,
    attvalues := none }

/-- An edge element with explicit endpoint ids and weight attribute. -/
def edgeElOf (s t w : String) : EdgeEl :=
  { source := some s, target := some t, weight := some w }

/-- The scenario document of the spec: nodes A, B, C; edge A→B of weight 2;
edge A→Z of weight 1 where Z is undefined. -/
def docABC : GexfDoc :=
  { parserError := none,
    graph := some { nodes := [bareNodeEl "A", bareNodeEl "B", bareNodeEl "C"],
                    edges := [edgeElOf "A" "B" "2", edgeElOf "A" "Z" "1"] } }

/-- A graph with a duplicated node id and two id-less node elements. -/
def graphDup : GraphEl :=
  { nodes := [{ bareNodeEl "A" with label := some "first" },
              { bareNodeEl "A" with label := some "second" },
              { bareNodeEl "A" with id := none, label := some "u" },
              { bareNodeEl "A" with id := none, label := some "v" }],
    edges := [edgeElOf "A" "A" "1"] }

/-- A document with a duplicated node id and two id-less node elements. -/
def docDup : GexfDoc := { parserError := none, graph := some graphDup }

/-- The network parsed from `docDup` (the parser succeeds on it). -/
def ndDup : NetworkData :=
  match parseGexf docDup {} with
  | Except.ok nd => nd
  | Except.error _ => { nodes := [], links := [] }

/-- A sample author node. -/
def sampleNodeA : GraphNode :=
  { id := "a1", label := "A. Sample", group := "Cluster 1", val := some 1,
    color := "#334155", nodeType := NodeType.author }

/-- A second sample author node whose full label contains a searchable word. -/
def sampleNodeB : GraphNode :=
  { id := "b1", label := "N1", group := "Cluster 2", val := some 1,
    color := "#334155", fullLabel := some "Machine Learning Node",
    nodeType := NodeType.author }

/-! ## Claim C2 -/

/-- Claim C2: for every input document, `parseGexf` either fails with a parse
error carrying the underlying XML syntax diagnostic (when the DOM carries a
`parsererror`), or fails with the distinct structural diagnostic
`GEXF: missing graph` (well-formed XML without a graph root), or returns a
`NetworkData`; with a graph root present, missing optional per-element fields
never cause a failure. -/
theorem C2_parse_error_contract : ∀ (doc : GexfDoc) (opts : GexfOptions),
    (∀ t, doc.parserError = some t →
      parseGexf doc opts
        = Except.error ("GEXF parse error: " ++ (if t = "" then "Invalid XML" else t)))
    ∧ (doc.parserError = none → doc.graph = none →
        parseGexf doc opts = Except.error "GEXF: missing graph")
    ∧ (∀ g, doc.parserError = none → doc.graph = some g →
        ∃ nd, parseGexf doc opts = Except.ok nd) := by
  intro doc opts
  refine ⟨?_, ?_, ?_⟩
  · intro t ht
    simp [parseGexf, ht]
  · intro hpe hg
    simp [parseGexf, hpe, hg]
  · intro g hpe hg
    refine ⟨{ nodes := (buildNodeMap opts g.nodes).map Prod.snd,
              links := g.edges.filterMap (resolveEdge (buildNodeMap opts g.nodes)) }, ?_⟩
    simp [parseGexf, hpe, hg]

/-- A document whose DOM parse produced a `parsererror` element. -/
def docMalformed : GexfDoc := { parserError := some "tag mismatch", graph := none }

/-- A well-formed document with no graph root. -/
def docNoGraph : GexfDoc := { parserError := none, graph := none }

/-- A well-formed document with an empty graph. -/
def docEmptyGraph : GexfDoc :=
  { parserError := none, graph := some { nodes := [], edges := [] } }

/-- Witness for C2 at three concrete documents: a malformed document, a
well-formed document without a graph root, and an empty graph. -/
theorem C2_parse_error_contract_witness :
    parseGexf docMalformed {} = Except.error "GEXF parse error: tag mismatch"
    ∧ parseGexf docNoGraph {} = Except.error "GEXF: missing graph"
    ∧ ∃ nd, parseGexf docEmptyGraph {} = Except.ok nd := by
  refine ⟨?_, ?_, ?_⟩
  · exact (C2_parse_error_contract docMalformed {}).1 "tag mismatch" rfl
  · exact (C2_parse_error_contract docNoGraph {}).2.1 rfl rfl
  · exact (C2_parse_error_contract docEmptyGraph {}).2.2 { nodes := [], edges := [] } rfl rfl

/-! ## Claim C4 -/

/-- Counterexample to claim C4 as stated: on the empty dataset every node
(vacuously) carries numeric coordinates, yet `hasGexfLayout` is false and the
force simulation is started, so "every node carries numeric (x, y) implies
authoritative-layout mode" fails without a non-emptiness proviso.  (The empty
dataset is reachable: the citation filter can remove every node.) -/
theorem C4_counterexample :
    (∀ n ∈ ([] : List GraphNode), n.x.isSome ∧ n.y.isSome)
    ∧ hasGexfLayout [] = false
    ∧ simulationStarted [] = true := by
  refine ⟨?_, rfl, rfl⟩
  intro n hn
  cases hn

/-- Claim C4, amended: for every non-empty dataset in which every node
carries numeric `(x, y)`, authoritative-layout mode is selected and no force
simulation is started; whenever some node lacks a numeric coordinate (and for
the empty dataset), simulation mode is selected instead. -/
theorem C4_layout_mode_selection : ∀ nodes : List GraphNode,
    (nodes ≠ [] → (∀ n ∈ nodes, n.x.isSome ∧ n.y.isSome) →
      hasGexfLayout nodes = true ∧ simulationStarted nodes = false)
    ∧ ((∃ n ∈ nodes, ¬(n.x.isSome ∧ n.y.isSome)) →
      hasGexfLayout nodes = false ∧ simulationStarted nodes = true) := by
  intro nodes
  constructor
  · intro hne hall
    have h1 : hasGexfLayout nodes = true := by
      unfold hasGexfLayout
      rw [Bool.and_eq_true]
      constructor
      · simpa [List.length_pos] using hne
      · rw [List.all_eq_true]
        intro n hn
        rw [Bool.and_eq_true]
        exact ⟨(hall n hn).1, (hall n hn).2⟩
    exact ⟨h1, by simp [simulationStarted, h1]⟩
  · intro hsome
    have h1 : hasGexfLayout nodes = false := by
      unfold hasGexfLayout
      obtain ⟨n, hn, hnot⟩ := hsome
      have hall : nodes.all (fun d => d.x.isSome && d.y.isSome) = false := by
        cases hv : nodes.all (fun d => d.x.isSome && d.y.isSome) with
        | false => rfl
        | true =>
          have h2 := List.all_eq_true.mp hv n hn
          rw [Bool.and_eq_true] at h2
          exact (hnot ⟨h2.1, h2.2⟩).elim
      simp [hall]
    exact ⟨h1, by simp [simulationStarted, h1]⟩

/-- Witness for the amended C4 at a one-node dataset with coordinates and at
a one-node dataset missing them. -/
theorem C4_layout_mode_selection_witness :
    (hasGexfLayout [{ sampleNodeA with x := some (some 1), y := some (some 2) }] = true
      ∧ simulationStarted [{ sampleNodeA with x := some (some 1), y := some (some 2) }] = false)
    ∧ (hasGexfLayout [sampleNodeA] = false ∧ simulationStarted [sampleNodeA] = true) := by
  constructor
  · exact (C4_layout_mode_selection
      [{ sampleNodeA with x := some (some 1), y := some (some 2) }]).1
      (by simp) (by intro n hn; simp at hn; simp [hn, sampleNodeA])
  · exact (C4_layout_mode_selection [sampleNodeA]).2
      ⟨sampleNodeA, by simp, by simp [sampleNodeA]⟩

/-! ## Claim C5 -/

/-- Claim C5: the parser's color resolution attempts the packed `hex`
attribute first (the RGB components are ignored when it is present and
non-empty) and otherwise reconstructs the color from the numeric r/g/b
components, with every channel clamped to [0, 255] before composing the hex
string; a node carrying hex `#ff0000` resolves to the identical color string
as a node carrying RGB (255, 0, 0). -/
theorem C5_color_resolution :
    (∀ (c : VizColorEl) (h : String), c.hex = some h → h ≠ "" →
      resolveColor (some c) = resolveHexString h)
    ∧ (∀ (c : VizColorEl), c.hex = none → ∀ rv gv bv,
        getRgbFromColorEl c = some (rv, gv, bv) →
        resolveColor (some c) = rgbToHex rv gv bv)
    ∧ (∀ x : ℚ, clampChannel x ≤ 255)
    ∧ resolveColor (some { hex := some "#ff0000", r := none, g := none, b := none })
        = "#ff0000"
    ∧ resolveColor (some { hex := none, r := some "255", g := some "0", b := some "0" })
        = "#ff0000"
    ∧ resolveColor (some { hex := some "#ff0000", r := none, g := none, b := none })
        = resolveColor (some { hex := none, r := some "255", g := some "0", b := some "0" }) := by
  refine ⟨?_, ?_, ?_, by with_unfolding_all decide, by with_unfolding_all decide,
    by with_unfolding_all decide⟩
  · intro c h hc hne
    simp [resolveColor, hc, hne]
  · intro c hc rv gv bv hrgb
    simp [resolveColor, colorFromRgb, hc, hrgb]
  · intro x
    unfold clampChannel
    have h1 : min 255 (jsRound x) ≤ (255 : ℤ) := min_le_left _ _
    have h2 : max 0 (min 255 (jsRound x)) ≤ (255 : ℤ) := by
      apply max_le _ h1
      norm_num
    exact Int.toNat_le.mpr h2

/-- Witness for C5: the hex path at the literal node and the RGB fallback at
a clamped triple. -/
theorem C5_color_resolution_witness :
    resolveColor (some { hex := some "#ff0000", r := some "9", g := some "9", b := some "9" })
      = resolveHexString "#ff0000"
    ∧ resolveColor (some { hex := none, r := some "300", g := some "-5", b := some "0" })
      = rgbToHex 300 (-5) 0
    ∧ clampChannel 300 ≤ 255 := by
  refine ⟨?_, ?_, ?_⟩
  · exact (C5_color_resolution).1
      { hex := some "#ff0000", r := some "9", g := some "9", b := some "9" }
      "#ff0000" rfl (by decide)
  · exact (C5_color_resolution).2.1
      { hex := none, r := some "300", g := some "-5", b := some "0" } rfl
      300 (-5) 0 (by with_unfolding_all decide)
  · exact (C5_color_resolution).2.2.1 300

/-! ## Claim C7 -/

/-- A node element whose `viz:position` carries a malformed `x` attribute. -/
def nodeElMalformedX : NodeEl :=
  { bareNodeEl "A" with position := some { x := some "abc", y := some "1" } }

/-- Counterexample to claim C7 as stated: a present-but-malformed positional
attribute (`x="abc"`) does not default to coordinate 0 — `parseFloat` yields
NaN, which is stored as the node's `x`. -/
theorem C7_counterexample :
    (buildNode {} nodeElMalformedX).x = some none
    ∧ (buildNode {} nodeElMalformedX).x ≠ some (some 0) := by
  refine ⟨by with_unfolding_all decide, by with_unfolding_all decide⟩

/-- Claim C7, amended: each missing optional field defaults independently — a
missing label yields the id string, a missing `viz:position` element (or a
missing coordinate attribute on it) yields coordinate 0, a missing color
yields the neutral gray `#94a3b8`, and a missing size yields the default 5;
but a present, non-numeric positional attribute yields NaN rather than 0.
Each extracted field is a function of its own source field alone. -/
theorem C7_field_defaults : ∀ (opts : GexfOptions) (el : NodeEl),
    ((buildNode opts el).id = el.id.getD "")
    ∧ (el.label = none → (buildNode opts el).label = (buildNode opts el).id)
    ∧ (el.position = none →
        (buildNode opts el).x = some (some 0) ∧ (buildNode opts el).y = some (some 0))
    ∧ (∀ p, el.position = some p → p.x = none → (buildNode opts el).x = some (some 0))
    ∧ (∀ p s, el.position = some p → p.x = some s → jsParseFloat s = none →
        (buildNode opts el).x = some none)
    ∧ (el.color = none → (buildNode opts el).color = "#94a3b8")
    ∧ (el.size = none → (buildNode opts el).val = some 5)
    ∧ ((buildNode opts el).label = nodeLabelOf el
        ∧ (buildNode opts el).x = some (vizX el.position)
        ∧ (buildNode opts el).y = some (vizY el.position)
        ∧ (buildNode opts el).color = resolveColor el.color
        ∧ (buildNode opts el).val = vizVal el.size) := by
  intro opts el
  refine ⟨rfl, ?_, ?_, ?_, ?_, ?_, ?_, rfl, rfl, rfl, rfl, rfl⟩
  · intro hl
    simp [buildNode, nodeLabelOf, nodeIdOf, hl]
  · intro hp
    constructor
    · simp [buildNode, vizX, hp]
    · simp [buildNode, vizY, hp]
  · intro p hp hx
    have : jsParseFloat "0" = some 0 := by with_unfolding_all decide
    simp [buildNode, vizX, hp, hx, this]
  · intro p s hp hx hnan
    simp [buildNode, vizX, hp, hx, hnan]
  · intro hc
    simp [buildNode, resolveColor, hc]
  · intro hs
    simp [buildNode, vizVal, hs]

/-- Witness for the amended C7 at a bare node element (all optional fields
absent) and at the malformed-position element. -/
theorem C7_field_defaults_witness :
    ((buildNode {} (bareNodeEl "A")).label = (buildNode {} (bareNodeEl "A")).id
      ∧ (buildNode {} (bareNodeEl "A")).x = some (some 0)
      ∧ (buildNode {} (bareNodeEl "A")).color = "#94a3b8"
      ∧ (buildNode {} (bareNodeEl "A")).val = some 5)
    ∧ (buildNode {} nodeElMalformedX).x = some none := by
  constructor
  · refine ⟨(C7_field_defaults {} (bareNodeEl "A")).2.1 rfl,
      ((C7_field_defaults {} (bareNodeEl "A")).2.2.1 rfl).1,
      (C7_field_defaults {} (bareNodeEl "A")).2.2.2.2.2.1 rfl,
      (C7_field_defaults {} (bareNodeEl "A")).2.2.2.2.2.2.1 rfl⟩
  · exact (C7_field_defaults {} nodeElMalformedX).2.2.2.2.1
      { x := some "abc", y := some "1" } "abc" rfl rfl (by with_unfolding_all decide)

/-! ## Claim C8 -/

/-- Counterexample to claim C8 as stated: the spawn position is not clamped
on every side of the container — an anchor far below spawns the window at
y = 1950, far past the 600-pixel graph height (and 700-pixel container), and
an anchor far to the left spawns it at x = -4980 < 0.  Only the right edge
(x ≤ width - 300) and the top edge (y ≥ 20) are clamped. -/
theorem C8_counterexample :
    ((addWindow WMInit sampleNodeA 0 2000 800).windows.map (fun w => w.y) = [1950]
      ∧ (600 : ℚ) < 1950 ∧ (700 : ℚ) < 1950)
    ∧ ((addWindow WMInit sampleNodeA (-5000) 100 800).windows.map (fun w => w.x) = [-4980]
      ∧ (-4980 : ℚ) < 0) := by
  refine ⟨⟨?_, by norm_num, by norm_num⟩, ?_, by norm_num⟩
  · unfold addWindow WMInit
    norm_num [max_def]
  · unfold addWindow WMInit
    norm_num [min_def]

/-- Claim C8, amended: opening a window for an entity id that is not already
open appends exactly one window, placed at the anchor plus a cascading
stagger of 10 pixels per already-open window, with the x position clamped to
at most `width - 300` (the right edge) and the y position clamped to at least
20 (the top edge); the bottom and left edges are not clamped. -/
theorem C8_new_window_placement : ∀ (s : WMState) (node : GraphNode) (ax ay cw : ℚ),
    (s.windows.any (fun w => w.id == node.id)) = false →
    ((addWindow s node ax ay cw).windows
        = s.windows ++ [{ id := node.id, node := node,
                          x := min (ax + 20 + (s.windows.length : ℚ) * 10) (cw - 300),
                          y := max (ay - 50 + (s.windows.length : ℚ) * 10) 20,
                          zIndex := s.nextZIndex + 1 }])
    ∧ (∀ w ∈ (addWindow s node ax ay cw).windows, w ∉ s.windows →
        w.x ≤ cw - 300 ∧ 20 ≤ w.y) := by
  intro s node ax ay cw hnew
  have hwin : (addWindow s node ax ay cw).windows
      = s.windows ++ [{ id := node.id, node := node,
                        x := min (ax + 20 + (s.windows.length : ℚ) * 10) (cw - 300),
                        y := max (ay - 50 + (s.windows.length : ℚ) * 10) 20,
                        zIndex := s.nextZIndex + 1 }] := by
    unfold addWindow
    rw [hnew]
    simp
  constructor
  · exact hwin
  · intro w hw hnot
    rw [hwin] at hw
    rcases List.mem_append.mp hw with hw | hw
    · exact (hnot hw).elim
    · rw [List.mem_singleton] at hw
      subst hw
      exact ⟨min_le_right _ _, le_max_right _ _⟩

/-- Witness for the amended C8: opening a first window at anchor (100, 300)
in an 800-pixel container. -/
theorem C8_new_window_placement_witness :
    ((addWindow WMInit sampleNodeA 100 300 800).windows
      = [{ id := sampleNodeA.id, node := sampleNodeA, x := min (100 + 20 + (0 : ℚ) * 10) (800 - 300),
           y := max (300 - 50 + (0 : ℚ) * 10) 20, zIndex := 10 + 1 }])
    ∧ ∀ w ∈ (addWindow WMInit sampleNodeA 100 300 800).windows, w ∉ WMInit.windows →
        w.x ≤ 800 - 300 ∧ 20 ≤ w.y := by
  have h := C8_new_window_placement WMInit sampleNodeA 100 300 800 (by decide)
  exact ⟨h.1, h.2⟩

/-! ## Claim C9 -/

lemma jsToLowerCase_ne_empty (s : String) (h : s ≠ "") : jsToLowerCase s ≠ "" := by
  intro hc
  apply h
  have hdata : (jsToLowerCase s).data = ("" : String).data := congrArg String.data hc
  have hmap : s.data.map Char.toLower = [] := hdata
  have hnil : s.data = [] := List.map_eq_nil_iff.mp hmap
  cases s with
  | mk data => exact (congrArg String.mk hnil).trans rfl

/-- Claim C9: with a non-empty search term active, a node is classified as
search-matched exactly when the lowercased term occurs as a substring of its
lowercased short label or of its lowercased full label; matched nodes render
at opacity 1 and all others at opacity 0.1; this classification is
independent of the hover state and of the open windows (search overrides
hover-based dimming). -/
theorem C9_search_highlight : ∀ (searchTerm : String) (hoverNode : Option GraphNode)
    (hoverLink : Option GraphLink) (openIds : List String) (d : GraphNode),
    searchTerm ≠ "" →
    (isHighlight (jsToLowerCase searchTerm) hoverNode hoverLink openIds d
        = (jsIncludes (jsToLowerCase d.label) (jsToLowerCase searchTerm)
            || jsIncludes (jsToLowerCase (d.fullLabel.getD "")) (jsToLowerCase searchTerm)))
    ∧ (nodeOpacity searchTerm hoverNode hoverLink openIds d
        = if (jsIncludes (jsToLowerCase d.label) (jsToLowerCase searchTerm)
            || jsIncludes (jsToLowerCase (d.fullLabel.getD "")) (jsToLowerCase searchTerm))
          then 1 else 1 / 10)
    ∧ (∀ (hn2 : Option GraphNode) (hl2 : Option GraphLink) (openIds2 : List String),
        nodeOpacity searchTerm hoverNode hoverLink openIds d
          = nodeOpacity searchTerm hn2 hl2 openIds2 d) := by
  intro searchTerm hoverNode hoverLink openIds d hterm
  have ht : jsToLowerCase searchTerm ≠ "" := jsToLowerCase_ne_empty searchTerm hterm
  have hhl : ∀ (hn : Option GraphNode) (hl : Option GraphLink) (oi : List String),
      isHighlight (jsToLowerCase searchTerm) hn hl oi d
        = (jsIncludes (jsToLowerCase d.label) (jsToLowerCase searchTerm)
            || jsIncludes (jsToLowerCase (d.fullLabel.getD "")) (jsToLowerCase searchTerm)) := by
    intro hn hl oi
    simp [isHighlight, ht]
  refine ⟨hhl hoverNode hoverLink openIds, ?_, ?_⟩
  · simp [nodeOpacity, ht, hhl]
  · intro hn2 hl2 openIds2
    simp [nodeOpacity, ht, hhl]

/-- Witness for C9: the search term `Learn` matches only the full label of
`sampleNodeB` (its short label is `N1`), yet the node renders at opacity 1
even with another node hovered; a non-matching node renders at opacity 1/10. -/
theorem C9_search_highlight_witness :
    nodeOpacity "Learn" (some sampleNodeA) none [] sampleNodeB = 1
    ∧ nodeOpacity "Learn" (some sampleNodeA) none [] sampleNodeA = 1 / 10
    ∧ jsIncludes (jsToLowerCase sampleNodeB.label) (jsToLowerCase "Learn") = false := by
  refine ⟨?_, ?_, by decide⟩
  · exact ((C9_search_highlight "Learn" (some sampleNodeA) none [] sampleNodeB
      (by decide)).2.1).trans (by with_unfolding_all decide)
  · exact ((C9_search_highlight "Learn" (some sampleNodeA) none [] sampleNodeA
      (by decide)).2.1).trans (by with_unfolding_all decide)

/-! ## Claim C3 -/

/-- Claim C3: in every reachable window-manager state the open windows have
pairwise-distinct entity ids (at most one window per entity), and invoking
`addWindow` on an id that is already open leaves the number of open windows
unchanged, leaves every other window untouched, and only reassigns the open
window's z-index to `nextZIndex + 1`, which is strictly greater than every
other window's z-index (bring to front). -/
theorem C3_open_idempotent_unique : ∀ s : WMState, WMReachable s →
    ((s.windows.map (fun w => w.id)).Nodup)
    ∧ (∀ (node : GraphNode) (ix iy cw : ℚ),
        (s.windows.any (fun w => w.id == node.id)) = true →
        ((addWindow s node ix iy cw).windows.length = s.windows.length)
        ∧ (∀ w ∈ (addWindow s node ix iy cw).windows, w.id ≠ node.id → w ∈ s.windows)
        ∧ (∀ w ∈ (addWindow s node ix iy cw).windows, w.id = node.id →
            w.zIndex = s.nextZIndex + 1
            ∧ (∃ w0 ∈ s.windows, w0.id = node.id ∧ w = { w0 with zIndex := s.nextZIndex + 1 })
            ∧ (∀ w2 ∈ (addWindow s node ix iy cw).windows, w2.id ≠ node.id →
                w2.zIndex < w.zIndex))) := by
  intro s hre
  obtain ⟨hnd, hz⟩ := wmInv_reachable s hre
  refine ⟨hnd, ?_⟩
  intro node ix iy cw hex
  have hwin : (addWindow s node ix iy cw).windows
      = s.windows.map (fun w =>
          if w.id == node.id then { w with zIndex := s.nextZIndex + 1 } else w) := by
    unfold addWindow
    rw [hex]
    simp
  have hmem_other : ∀ w ∈ (addWindow s node ix iy cw).windows, w.id ≠ node.id → w ∈ s.windows := by
    intro w hw hne
    rw [hwin] at hw
    rcases List.mem_map.mp hw with ⟨w0, hw0, hweq⟩
    by_cases hid : w0.id = node.id
    · simp only [hid, beq_self_eq_true, if_true] at hweq
      subst hweq
      exact (hne rfl).elim
    · have hidb : ¬(w0.id == node.id) = true := by simp [hid]
      rw [if_neg hidb] at hweq
      subst hweq
      exact hw0
  refine ⟨by rw [hwin]; exact List.length_map _ _, hmem_other, ?_⟩
  intro w hw hid
  have hweq : ∃ w0 ∈ s.windows, w0.id = node.id ∧ w = { w0 with zIndex := s.nextZIndex + 1 } := by
    rw [hwin] at hw
    rcases List.mem_map.mp hw with ⟨w0, hw0, hweq⟩
    by_cases hid0 : w0.id = node.id
    · simp only [hid0, beq_self_eq_true, if_true] at hweq
      refine ⟨w0, hw0, hid0, ?_⟩
      rw [hid0]
      exact hweq.symm
    · have hidb : ¬(w0.id == node.id) = true := by simp [hid0]
      rw [if_neg hidb] at hweq
      subst hweq
      exact (hid0 hid).elim
  obtain ⟨w0, hw0, hid0, hwe⟩ := hweq
  have hzw : w.zIndex = s.nextZIndex + 1 := by rw [hwe]
  refine ⟨hzw, ⟨w0, hw0, hid0, hwe⟩, ?_⟩
  intro w2 hw2 hne2
  have hw2s : w2 ∈ s.windows := hmem_other w2 hw2 hne2
  have := hz w2 hw2s
  omega

/-- Witness for C3: after opening a window for `sampleNodeA` from the initial
state, re-opening the same entity keeps the window count at one and the
window list stays duplicate-free. -/
theorem C3_open_idempotent_unique_witness :
    ((addWindow (addWindow WMInit sampleNodeA 10 10 800) sampleNodeA 50 50 800).windows.length
      = (addWindow WMInit sampleNodeA 10 10 800).windows.length)
    ∧ (((addWindow WMInit sampleNodeA 10 10 800).windows.map (fun w => w.id)).Nodup) := by
  have hre : WMReachable (addWindow WMInit sampleNodeA 10 10 800) :=
    WMReachable.step WMReachable.init (WMStep.add WMInit sampleNodeA 10 10 800)
  have h := C3_open_idempotent_unique (addWindow WMInit sampleNodeA 10 10 800) hre
  refine ⟨(h.2 sampleNodeA 50 50 800 ?_).1, h.1⟩
  unfold addWindow WMInit
  simp

/-! ## Claim C1 -/

/-- The base network used by the C1 filter witness. -/
def baseC1 : NetworkData :=
  { nodes := [sampleNodeA],
    links := [{ source := LinkEnd.strId "a1", target := LinkEnd.strId "a1", value := some 1 }] }

/-- The single link of `baseC1`. -/
def linkC1 : GraphLink :=
  { source := LinkEnd.strId "a1", target := LinkEnd.strId "a1", value := some 1 }

/-- Claim C1: every link of a parsed `NetworkData` carries resolved node
objects that are present in that network's node collection, and every link
surviving the citation-mode domain/subdomain filter has both endpoint ids
present among the filtered nodes; moreover the spec's scenario holds — a
GEXF with nodes A, B, C and edges A→B (weight 2) and A→Z (Z undefined)
yields exactly the nodes A, B, C and the single edge A→B, with no error
raised. -/
theorem C1_link_endpoints_present :
    (∀ (doc : GexfDoc) (opts : GexfOptions) (nd : NetworkData),
      parseGexf doc opts = Except.ok nd →
      ∀ l ∈ nd.links, ∃ ns nt, l.source = LinkEnd.ref ns ∧ l.target = LinkEnd.ref nt
        ∧ ns ∈ nd.nodes ∧ nt ∈ nd.nodes)
    ∧ (∀ (base : NetworkData) (fs : List ActiveFilter) (ps : List Paper),
        ∀ l ∈ (filterCitationData base fs ps).links,
          (∃ n ∈ (filterCitationData base fs ps).nodes, n.id = l.source.endId)
          ∧ (∃ n ∈ (filterCitationData base fs ps).nodes, n.id = l.target.endId))
    ∧ ((parseGexf docABC {}).map (fun nd => nd.nodes.map (fun n => n.id))
        = Except.ok ["A", "B", "C"])
    ∧ ((parseGexf docABC {}).map (fun nd => nd.links.map
          (fun l => (l.source.endId, l.target.endId, l.value)))
        = Except.ok [("A", "B", some (2 : ℚ))]) := by
  refine ⟨?_, ?_, by with_unfolding_all rfl, by with_unfolding_all rfl⟩
  · intro doc opts nd h l hl
    obtain ⟨hpe, g, hg, hnd⟩ := parseGexf_ok_inv doc opts nd h
    subst hnd
    rcases List.mem_filterMap.mp hl with ⟨e, he, hre⟩
    obtain ⟨sid, tid, ns, nt, hes, het, hsrc, htgt, hgs, hgt⟩ :=
      resolveEdge_inv (buildNodeMap opts g.nodes) e l hre
    exact ⟨ns, nt, hsrc, htgt, jsMapGet_mem _ _ _ hgs, jsMapGet_mem _ _ _ hgt⟩
  · intro base fs ps l hl
    have hl2 : l ∈ (filterCitationData base fs ps).links := hl
    simp only [filterCitationData] at hl2
    rcases List.mem_filter.mp hl2 with ⟨hmem, hpred⟩
    rw [Bool.and_eq_true] at hpred
    have hconv : ∀ a : String, ∀ ids : List String, ids.contains a = true → a ∈ ids := by
      intro a ids hc
      rw [List.contains_eq_any_beq] at hc
      rcases List.any_eq_true.mp hc with ⟨x, hx, hax⟩
      exact (eq_of_beq hax) ▸ hx
    constructor
    · have := hconv _ _ hpred.1
      rcases List.mem_map.mp this with ⟨n, hn, hid⟩
      exact ⟨n, hn, hid⟩
    · have := hconv _ _ hpred.2
      rcases List.mem_map.mp this with ⟨n, hn, hid⟩
      exact ⟨n, hn, hid⟩

/-- Witness for C1 at the concrete filtered network `baseC1`: the surviving
self-link's endpoint ids are both present among the filtered nodes. -/
theorem C1_link_endpoints_present_witness :
    (∃ n ∈ (filterCitationData baseC1 [] []).nodes, n.id = linkC1.source.endId)
    ∧ (∃ n ∈ (filterCitationData baseC1 [] []).nodes, n.id = linkC1.target.endId) := by
  exact (C1_link_endpoints_present).2.1 baseC1 [] [] linkC1 (by with_unfolding_all decide)

/-! ## Claim C6 -/

/-- Claim C6: toggling off an active domain filter removes that domain
filter and every subdomain filter whose parent domain id is the removed
domain, and leaves every other filter unchanged (in place): the result is
exactly the original list filtered of the domain entry and of its subdomain
entries.  The hypotheses express reachable filter state: the toggled domain
is listed in `domainsList`, every active subdomain filter under it carries
one of that domain's sub-areas, and the filter list is duplicate-free. -/
theorem C6_domain_removal_cascade :
    ∀ (domainsList : List Domain) (activeFilters : List ActiveFilter) (did : String) (dom : Domain),
    ActiveFilter.domain did ∈ activeFilters →
    domainsList.find? (fun d => d.id == did) = some dom →
    (∀ v, ActiveFilter.subdomain v did ∈ activeFilters → v ∈ dom.subAreas) →
    activeFilters.Nodup →
    toggleFilter domainsList FilterType.domain did none activeFilters
      = activeFilters.filter (fun f => match f with
          | ActiveFilter.domain v => !(v == did)
          | ActiveFilter.subdomain _ d2 => !(d2 == did)) := by
  intro domainsList activeFilters did dom hmem hdom hsub hnd
  obtain ⟨i, hfi⟩ : ∃ i, activeFilters.findIdx? (domainPred did) = some i := by
    cases hfi : activeFilters.findIdx? (domainPred did) with
    | none =>
      have := List.findIdx?_eq_none_iff.mp hfi (ActiveFilter.domain did) hmem
      simp [domainPred] at this
    | some i => exact ⟨i, rfl⟩
  have heidx : activeFilters.eraseIdx i = activeFilters.eraseP (domainPred did) := by
    have h1 : eraseFirst (domainPred did) activeFilters = activeFilters.eraseIdx i := by
      rw [eraseFirst, hfi]
    rw [← h1, eraseFirst_eq_eraseP]
  have hstep : toggleFilter domainsList FilterType.domain did none activeFilters
      = dom.subAreas.foldl (fun acc subArea => eraseFirst (subPred subArea did) acc)
          (activeFilters.eraseIdx i) := by
    unfold toggleFilter
    rw [hfi, hdom]
  rw [hstep, heidx,
    eraseP_eq_filter_of_unique activeFilters (domainPred did) (ActiveFilter.domain did)
      (domainPred_unique did) hnd,
    foldl_eraseFirst_subPred did dom.subAreas _ (List.Nodup.filter _ hnd),
    List.filter_filter]
  apply List.filter_congr
  intro f hf
  cases f with
  | domain v =>
    have hany : (dom.subAreas.any fun sa => subPred sa did (ActiveFilter.domain v)) = false := by
      rw [List.any_eq_false]
      intro sa _
      simp [subPred]
    simp [hany, domainPred]
  | subdomain v d2 =>
    by_cases hd : d2 = did
    · subst hd
      have hv : v ∈ dom.subAreas := hsub v hf
      have hany : (dom.subAreas.any fun sa => subPred sa d2 (ActiveFilter.subdomain v d2)) = true :=
        List.any_eq_true.mpr ⟨v, hv, by simp [subPred]⟩
      simp [hany, domainPred]
    · have hany : (dom.subAreas.any fun sa => subPred sa did (ActiveFilter.subdomain v d2)) = false := by
        rw [List.any_eq_false]
        intro sa _
        simp [subPred, hd]
      simp [hany, domainPred, hd]

/-- The domain list used by the C6 witness (the first two entries of the
repository's `DOMAINS` constant). -/
def domainsW : List Domain :=
  [{ id := "MAN", name := "Manufacturing and Design", color := "#2563eb",
     subAreas := ["Additive Mfg", "Smart Factories", "Lean Principles", "CAD/CAM"] },
   { id := "HLT", name := "Healthcare Systems", color := "#dc2626",
     subAreas := ["Patient Flow", "Telehealth"] }]

/-- The active filter list of the spec's scenario: a domain filter with two
active sub-area filters beneath it, plus an unrelated domain filter. -/
def filtersW : List ActiveFilter :=
  [ActiveFilter.domain "MAN", ActiveFilter.subdomain "Additive Mfg" "MAN",
   ActiveFilter.subdomain "Smart Factories" "MAN", ActiveFilter.domain "HLT"]

/-- Witness for C6: removing the MAN domain filter removes all three MAN
entries and leaves exactly the HLT filter. -/
theorem C6_domain_removal_cascade_witness :
    toggleFilter domainsW FilterType.domain "MAN" none filtersW
      = [ActiveFilter.domain "HLT"] := by
  have h := C6_domain_removal_cascade domainsW filtersW "MAN" (domainsW.get ⟨0, by decide⟩)
    (by decide) (by decide) ?_ (by decide)
  · exact h.trans (by decide)
  · intro v hv
    simp only [filtersW, List.mem_cons, List.not_mem_nil, or_false] at hv
    rcases hv with h1 | h1 | h1 | h1
    · exact ActiveFilter.noConfusion h1
    · injection h1 with h2 h3
      subst h2
      decide
    · injection h1 with h2 h3
      subst h2
      decide
    · exact ActiveFilter.noConfusion h1

/-! ## Claim C10 -/

lemma jsMapGet_id (m : NodeMap) (k : String) (v : GraphNode)
    (hpairs : ∀ p ∈ m, p.2.id = p.1) (h : jsMapGet m k = some v) : v.id = k := by
  unfold jsMapGet at h
  cases hf : m.find? (fun p => p.1 == k) with
  | none => rw [hf] at h; cases h
  | some p =>
    rw [hf] at h
    simp only [Option.map_some', Option.some.injEq] at h
    have hpred : ((fun q : String × GraphNode => q.1 == k) p) = true :=
      @List.find?_some _ (fun q => q.1 == k) p m hf
    have hpk : p.1 = k := eq_of_beq hpred
    rw [← h, hpairs p (List.mem_of_find?_eq_some hf), hpk]

/-- Claim C10: in every parsed network the node ids are pairwise distinct;
the node stored under an id is built from the last node element carrying
that id (earlier definitions are silently replaced); every link's endpoints
are exactly the surviving nodes under their ids; and node elements with no
id attribute all collapse onto the single id `""`. -/
theorem C10_duplicate_ids_last_wins :
    ∀ (doc : GexfDoc) (opts : GexfOptions) (g : GraphEl) (nd : NetworkData),
    doc.graph = some g →
    parseGexf doc opts = Except.ok nd →
    ((nd.nodes.map (fun n => n.id)).Nodup)
    ∧ (∀ i, nd.nodes.find? (fun n => n.id == i)
        = (g.nodes.reverse.find? (fun el => nodeIdOf el == i)).map (buildNode opts))
    ∧ (∀ l ∈ nd.links, ∃ ns nt, l.source = LinkEnd.ref ns ∧ l.target = LinkEnd.ref nt
        ∧ nd.nodes.find? (fun n => n.id == ns.id) = some ns
        ∧ nd.nodes.find? (fun n => n.id == nt.id) = some nt)
    ∧ (∀ el ∈ g.nodes, el.id = none → nodeIdOf el = "") := by
  intro doc opts g nd hg h
  obtain ⟨hpe, g2, hg2, hnd⟩ := parseGexf_ok_inv doc opts nd h
  have hgg : g2 = g := by
    rw [hg2] at hg
    exact Option.some.inj hg
  rw [hgg] at hnd
  subst hnd
  obtain ⟨hkeys0, hpairs0⟩ := buildNodeMap_inv opts g.nodes [] (by simp) (by intro p hp; cases hp)
  have hkeys : ((buildNodeMap opts g.nodes).map Prod.fst).Nodup := hkeys0
  have hpairs : ∀ p ∈ buildNodeMap opts g.nodes, p.2.id = p.1 := hpairs0
  have hids : ((buildNodeMap opts g.nodes).map Prod.snd).map (fun n => n.id)
      = (buildNodeMap opts g.nodes).map Prod.fst := by
    rw [List.map_map]
    exact List.map_congr_left (fun p hp => hpairs p hp)
  have hfind : ∀ i, ((buildNodeMap opts g.nodes).map Prod.snd).find? (fun n => n.id == i)
      = (g.nodes.reverse.find? (fun el => nodeIdOf el == i)).map (buildNode opts) := by
    intro i
    rw [find?_map_snd _ _ hpairs]
    have hfold := jsMapGet_fold opts g.nodes [] i
    unfold buildNodeMap
    rw [hfold]
    cases g.nodes.reverse.find? (fun el => nodeIdOf el == i) <;> rfl
  refine ⟨?_, hfind, ?_, ?_⟩
  · rw [hids]
    exact hkeys
  · intro l hl
    rcases List.mem_filterMap.mp hl with ⟨e, he, hre⟩
    obtain ⟨sid, tid, ns, nt, hes, het, hsrc, htgt, hgs, hgt⟩ :=
      resolveEdge_inv (buildNodeMap opts g.nodes) e l hre
    have hnsid : ns.id = sid := jsMapGet_id _ _ _ hpairs hgs
    have hntid : nt.id = tid := jsMapGet_id _ _ _ hpairs hgt
    refine ⟨ns, nt, hsrc, htgt, ?_, ?_⟩
    · rw [find?_map_snd _ _ hpairs, hnsid]
      exact hgs
    · rw [find?_map_snd _ _ hpairs, hntid]
      exact hgt
  · intro el _ hid
    simp [nodeIdOf, hid]

/-- Witness for C10 at the duplicate-id document: the surviving node under
id `A` is built from the last element carrying `A`, the parsed ids are
duplicate-free, and the id-less elements collapsed onto `""`. -/
theorem C10_duplicate_ids_last_wins_witness :
    ((ndDup.nodes.map (fun n => n.id)).Nodup)
    ∧ (ndDup.nodes.find? (fun n => n.id == "A")
        = (graphDup.nodes.reverse.find? (fun el => nodeIdOf el == "A")).map (buildNode {})) := by
  have h := C10_duplicate_ids_last_wins docDup {} graphDup ndDup rfl
    (by with_unfolding_all rfl)
  exact ⟨h.1, h.2.1 "A"⟩

end DDEC
